import Mathlib

set_option maxRecDepth 100000

/-!
Shallow embedding of the SPP Ingredients Allocation App
(`SPP_Ingredients_Allocation_App.py`).

The program loads historical issuance records from a spreadsheet, cleans
them (coercing quantity to a number, dropping rows where that fails, and
keeping only rows dated 2024 or later), and then, for a user request
mapping item identifiers to quantities, computes per item the historical
percentage share of each department and distributes the requested
quantity proportionally, rounding each allocation to the nearest whole
unit (pandas `round(0)`, i.e. round-half-to-even).

Modelling choices: tabular rows are Lean lists of structures; pandas
numeric values are exact rationals `ℚ`; `pd.to_numeric(..., errors="coerce")`
and `pd.to_datetime(..., errors="coerce")` results are `Option`-valued
fields of the raw record (`none` = NaN/NaT); `groupby` enumerates the
distinct group keys in ascending order (pandas default `sort=True`) and
sums each fiber; `sort_values(ascending=False)` is a sort that is
descending in the value (tie order among equal percentages is not
specified by the claims and pandas' default quicksort is unstable, so any
descending order is faithful); Python `str.lower()` is `String.toLower`.

Division by a zero total: rational division in Lean returns 0 where
float division returns a non-finite value (NaN for a 0 numerator,
otherwise an infinity).  The plain model below keeps rational division
and is used where that convention is harmless; the `F`-suffixed mirror
of the pipeline represents each post-division value as `Option ℚ`, with
`none` standing for a non-finite float, so that the NaN produced by a
zero total is visible.  Non-finiteness is absorbing for the operations
the pipeline applies afterwards (scaling by the requested quantity and
rounding), so `Option.map` propagation is faithful; `sort_values` places
non-finite values last (pandas default), modelled by `descRelF`.
-/

namespace SPP

/-- A raw sheet row after the two pandas coercions of
`load_data_from_google_sheet`: `dateYear` is the year of the coerced
`DATE` column (`none` models NaT), `quantityNum` is the coerced
`QUANTITY` column (`none` models NaN).  The remaining columns that the
allocation logic reads are carried as strings. -/
structure RawRecord where
  dateYear : Option Int
  itemSerial : String
  itemName : String
  departmentCat : String
  quantityNum : Option ℚ
deriving DecidableEq, Repr

/-- A cleaned row of the loaded table: quantity is numeric and the date
year is known. -/
structure UsageRecord where
  dateYear : Int
  itemSerial : String
  itemName : String
  departmentCat : String
  quantity : ℚ
deriving DecidableEq, Repr

/-- `df.dropna(subset=["QUANTITY"])`: keep rows whose quantity coerced. -/
def hasNumericQuantity (r : RawRecord) : Bool :=
  r.quantityNum.isSome

/-- `df[df["DATE"].dt.year >= 2024]`: a NaT date compares false. -/
def dateYearGE2024 (r : RawRecord) : Bool :=
  match r.dateYear with
  | some y => decide (2024 ≤ y)
  | none => false

/-- View a raw row that survived both filters as a cleaned row. -/
def cleanRecord (r : RawRecord) : Option UsageRecord :=
  match r.quantityNum, r.dateYear with
  | some q, some y => some ⟨y, r.itemSerial, r.itemName, r.departmentCat, q⟩
  | _, _ => none

/-- `load_data_from_google_sheet`, lines 42-47: coerce quantity, drop rows
where the coercion failed, keep rows dated year 2024 or later.  (The
credential/network plumbing and the derived QUARTER column play no role
in the allocation logic.) -/
def load_data_from_google_sheet (rows : List RawRecord) : List UsageRecord :=
  (((rows.filter hasNumericQuantity).filter dateYearGE2024).filterMap cleanRecord)

/-- Modelled from the spec (section 3 invariant): a row is kept exactly
when its quantity coerces to a number and its date falls in year 2024 or
later.  Used only to state the refinement in claim C6. -/
def keptBySpec (r : RawRecord) : Option UsageRecord :=
  match r.quantityNum, r.dateYear with
  | some q, some y => if 2024 ≤ y then some ⟨y, r.itemSerial, r.itemName, r.departmentCat, q⟩ else none
  | _, _ => none

/-- Sum of the QUANTITY column of a list of rows. -/
def sumQ (l : List UsageRecord) : ℚ :=
  (l.map (·.quantity)).sum

/-- The row predicate of `calculate_proportion` line 53-54: the lowered
serial or the lowered name equals `ident` (already lowered). -/
def matchIdent (ident : String) (r : UsageRecord) : Bool :=
  (r.itemSerial.toLower == ident) || (r.itemName.toLower == ident)

/-- `filtered_df`, lines 52-54: rows whose serial or name matches the
identifier case-insensitively. -/
def matchingRecords (df : List UsageRecord) (identifier : String) : List UsageRecord :=
  df.filter (matchIdent identifier.toLower)

/-- The distinct department categories of the matching rows, in ascending
order: pandas `groupby("DEPARTMENT_CAT")` sorts the group keys. -/
def deptKeys (df : List UsageRecord) (identifier : String) : List String :=
  List.insertionSort (· ≤ ·) ((matchingRecords df identifier).map (·.departmentCat)).dedup

/-- Total quantity of the matching rows issued to department `d`:
one group's sum in `groupby("DEPARTMENT_CAT")["QUANTITY"].sum()`. -/
def deptSum (df : List UsageRecord) (identifier : String) (d : String) : ℚ :=
  sumQ ((matchingRecords df identifier).filter (fun r => r.departmentCat == d))

/-- `usage_summary`, line 59: per-department quantity sums, keyed by the
sorted distinct departments. -/
def usage_summary (df : List UsageRecord) (identifier : String) : List (String × ℚ) :=
  (deptKeys df identifier).map (fun d => (d, deptSum df identifier d))

/-- `usage_summary.sum()`, the divisor of line 60. -/
def totalUsage (df : List UsageRecord) (identifier : String) : ℚ :=
  ((usage_summary df identifier).map (·.2)).sum

/-- `proportions`, line 60: `(usage_summary / usage_summary.sum()) * 100`. -/
def proportionsList (df : List UsageRecord) (identifier : String) : List (String × ℚ) :=
  (usage_summary df identifier).map (fun e => (e.1, e.2 / totalUsage df identifier * 100))

/-- Descending-percentage order used by `sort_values(ascending=False)`. -/
def descRel (x y : String × ℚ) : Prop :=
  y.2 ≤ x.2

instance : DecidableRel descRel :=
  fun x y => inferInstanceAs (Decidable (y.2 ≤ x.2))

instance : IsTotal (String × ℚ) descRel :=
  ⟨fun a b => le_total b.2 a.2⟩

instance : IsTrans (String × ℚ) descRel :=
  ⟨fun _ _ _ h₁ h₂ => le_trans h₂ h₁⟩

/-- `calculate_proportion`, lines 50-63: `None` when no row matches,
otherwise the per-department percentages sorted descending. -/
def calculate_proportion (df : List UsageRecord) (identifier : String) :
    Option (List (String × ℚ)) :=
  if matchingRecords df identifier = [] then none
  else some (List.insertionSort descRel (proportionsList df identifier))

/-- pandas/numpy `round(0)`: round to the nearest integer, ties to the
even neighbour. -/
def roundHalfEven (x : ℚ) : ℤ :=
  if x - ⌊x⌋ < 1/2 then ⌊x⌋
  else if 1/2 < x - ⌊x⌋ then ⌊x⌋ + 1
  else if ⌊x⌋ % 2 = 0 then ⌊x⌋ else ⌊x⌋ + 1

/-- `allocate_quantity`, lines 65-80: walk the request in order, skip
identifiers with no matching history, and extend each share with the
rounded allocated quantity `round((percentage / 100) * quantity)`. -/
def allocate_quantity (df : List UsageRecord) (item_quantities : List (String × ℚ)) :
    List (String × List (String × ℚ × ℚ)) :=
  item_quantities.filterMap (fun p =>
    match calculate_proportion df p.1 with
    | none => none
    | some shares =>
        some (p.1, shares.map (fun s => (s.1, s.2, ((roundHalfEven (s.2 / 100 * p.2) : ℤ) : ℚ)))))

/-- `proportions`, line 60, float-faithful: when the total of a group's
sums is zero, float division produces a non-finite value (`NaN` here,
since with a zero total of non-negative quantities every numerator is
also zero), modelled as `none`; otherwise the exact rational value. -/
def proportionsListF (df : List UsageRecord) (identifier : String) :
    List (String × Option ℚ) :=
  (usage_summary df identifier).map (fun e =>
    (e.1, if totalUsage df identifier = 0 then none
          else some (e.2 / totalUsage df identifier * 100)))

/-- Descending-value order with non-finite values last, as
`sort_values(ascending=False)` places NaN last (`na_position` default). -/
def descRelFB (x y : String × Option ℚ) : Bool :=
  match x.2, y.2 with
  | some a, some b => decide (b ≤ a)
  | some _, none => true
  | none, some _ => false
  | none, none => true

/-- The `Prop` form of `descRelFB`. -/
def descRelF (x y : String × Option ℚ) : Prop :=
  descRelFB x y = true

instance : DecidableRel descRelF :=
  fun x y => inferInstanceAs (Decidable (descRelFB x y = true))

/-- `calculate_proportion`, float-faithful in the percentages. -/
def calculate_proportionF (df : List UsageRecord) (identifier : String) :
    Option (List (String × Option ℚ)) :=
  if matchingRecords df identifier = [] then none
  else some (List.insertionSort descRelF (proportionsListF df identifier))

/-- `allocate_quantity`, float-faithful: a non-finite percentage stays
non-finite through `(pct / 100) * quantity` and through `round(0)`
(numpy rounds NaN to NaN), hence `Option.map`. -/
def allocate_quantityF (df : List UsageRecord) (item_quantities : List (String × ℚ)) :
    List (String × List (String × Option ℚ × Option ℚ)) :=
  item_quantities.filterMap (fun p =>
    match calculate_proportionF df p.1 with
    | none => none
    | some shares =>
        some (p.1, shares.map (fun s =>
          (s.1, s.2, s.2.map (fun pct => ((roundHalfEven (pct / 100 * p.2) : ℤ) : ℚ))))))

/-- The two-record table of the spec's allocation scenario: item `X`,
department `A` with quantity 30 and department `B` with quantity 70. -/
def dfX : List UsageRecord :=
  [⟨2024, "X", "X", "A", 30⟩, ⟨2024, "X", "X", "B", 70⟩]

/-- A table whose only record for item `x` has quantity 0: the matching
set is non-empty but its total quantity is zero. -/
def df0 : List UsageRecord :=
  [⟨2024, "x", "x", "D", 0⟩]

/-- A table engineering exact .5 allocations: requesting 50 of `H` gives
exact shares 7.5 (department `A`) and 42.5 (`B`); requesting 50 of `G`
gives 2.5 (`C`) and 47.5 (`D`). -/
def df8 : List UsageRecord :=
  [⟨2024, "H", "H", "A", 15⟩, ⟨2024, "H", "H", "B", 85⟩,
   ⟨2024, "G", "G", "C", 5⟩, ⟨2024, "G", "G", "D", 95⟩]

/-- A one-record table with serial `abc123`, for the case-insensitivity
scenario of the spec. -/
def dfABC : List UsageRecord :=
  [⟨2024, "abc123", "Widget", "D1", 5⟩]

/-- Concrete raw rows exercising every branch of the loader: a kept row,
a pre-2024 row, a row with an unparseable date, and a row whose quantity
fails numeric coercion. -/
def rowsW : List RawRecord :=
  [⟨some 2024, "a", "a", "d", some 3⟩, ⟨some 2023, "b", "b", "d", some 4⟩,
   ⟨none, "c", "c", "d", some 1⟩, ⟨some 2025, "e", "e", "d", none⟩]

/-- A memo table for `@st.cache_data` on `calculate_proportion`: entries
keyed by the (table, identifier) argument pair. -/
def cacheFind :
    List ((List UsageRecord × String) × Option (List (String × ℚ))) →
      (List UsageRecord × String) → Option (Option (List (String × ℚ)))
  | [], _ => none
  | (k, v) :: rest, key => if k = key then some v else cacheFind rest key

/-- `calculate_proportion` as Streamlit runs it: consult the
`@st.cache_data` memo first, otherwise compute and record the result. -/
def calculate_proportion_cached
    (c : List ((List UsageRecord × String) × Option (List (String × ℚ))))
    (df : List UsageRecord) (identifier : String) :
    Option (List (String × ℚ)) ×
      List ((List UsageRecord × String) × Option (List (String × ℚ))) :=
  match cacheFind c (df, identifier) with
  | some v => (v, c)
  | none => (calculate_proportion df identifier,
             ((df, identifier), calculate_proportion df identifier) :: c)

/-- Every memo entry records the function's true value at its key. -/
def CacheOK (c : List ((List UsageRecord × String) × Option (List (String × ℚ)))) : Prop :=
  ∀ e ∈ c, e.2 = calculate_proportion e.1.1 e.1.2

/- ### Helper lemmas -/

theorem keptBySpec_dateYear {r : RawRecord} {u : UsageRecord}
    (h : keptBySpec r = some u) : 2024 ≤ u.dateYear := by
  unfold keptBySpec at h
  rcases hq : r.quantityNum with _ | q <;> rcases hd : r.dateYear with _ | y <;>
    rw [hq, hd] at h
  · simp at h
  · simp at h
  · simp at h
  · have h' : (if 2024 ≤ y then
        some ({ dateYear := y, itemSerial := r.itemSerial, itemName := r.itemName,
                departmentCat := r.departmentCat, quantity := q } : UsageRecord)
      else none) = some u := h
    by_cases h24 : 2024 ≤ y
    · rw [if_pos h24] at h'
      cases h'
      exact h24
    · rw [if_neg h24] at h'
      simp at h'

theorem load_cons (r : RawRecord) (rs : List RawRecord) :
    load_data_from_google_sheet (r :: rs) =
      match keptBySpec r with
      | some u => u :: load_data_from_google_sheet rs
      | none => load_data_from_google_sheet rs := by
  unfold load_data_from_google_sheet keptBySpec
  rcases hq : r.quantityNum with _ | q <;> rcases hd : r.dateYear with _ | y
  · simp [List.filter_cons, hasNumericQuantity, hq]
  · simp [List.filter_cons, hasNumericQuantity, hq]
  · simp [List.filter_cons, hasNumericQuantity, dateYearGE2024, hq, hd]
  · by_cases h24 : 2024 ≤ y <;>
      simp [List.filter_cons, List.filterMap_cons, hasNumericQuantity, dateYearGE2024,
        cleanRecord, hq, hd, h24]

theorem load_eq_spec (rows : List RawRecord) :
    load_data_from_google_sheet rows = rows.filterMap keptBySpec := by
  induction rows with
  | nil => rfl
  | cons r rs ih =>
    rw [load_cons, List.filterMap_cons]
    rcases h : keptBySpec r with _ | u <;> simp [ih]

theorem allocate_keys (df : List UsageRecord) (req : List (String × ℚ)) :
    (allocate_quantity df req).map Prod.fst =
      (req.filter (fun p => (calculate_proportion df p.1).isSome)).map Prod.fst := by
  induction req with
  | nil => rfl
  | cons p ps ih =>
    unfold allocate_quantity at ih ⊢
    rcases h : calculate_proportion df p.1 with _ | shares <;>
      simp [List.filterMap_cons, List.filter_cons, h, ih]

theorem cacheFind_sound {c : List ((List UsageRecord × String) × Option (List (String × ℚ)))}
    {key : List UsageRecord × String} {v : Option (List (String × ℚ))}
    (h : cacheFind c key = some v) (hok : CacheOK c) :
    v = calculate_proportion key.1 key.2 := by
  induction c with
  | nil => simp [cacheFind] at h
  | cons e rest ih =>
    unfold cacheFind at h
    by_cases hk : e.1 = key
    · rw [if_pos hk] at h
      cases h
      rw [← hk]
      exact hok e (List.mem_cons_self e rest)
    · rw [if_neg hk] at h
      exact ih h (fun e' he' => hok e' (List.mem_cons_of_mem e he'))

theorem cached_result (c : List ((List UsageRecord × String) × Option (List (String × ℚ))))
    (df : List UsageRecord) (identifier : String) (hok : CacheOK c) :
    (calculate_proportion_cached c df identifier).1 = calculate_proportion df identifier := by
  unfold calculate_proportion_cached
  rcases h : cacheFind c (df, identifier) with _ | v
  · rfl
  · exact cacheFind_sound h hok

theorem cached_cacheOK (c : List ((List UsageRecord × String) × Option (List (String × ℚ))))
    (df : List UsageRecord) (identifier : String) (hok : CacheOK c) :
    CacheOK (calculate_proportion_cached c df identifier).2 := by
  unfold calculate_proportion_cached
  rcases h : cacheFind c (df, identifier) with _ | v
  · intro e he
    rcases List.mem_cons.mp he with he | he
    · rw [he]
    · exact hok e he
  · exact hok

theorem sumQ_cons (r : UsageRecord) (l : List UsageRecord) :
    sumQ (r :: l) = r.quantity + sumQ l := by
  simp [sumQ]

theorem sumQ_filter_partition (p : UsageRecord → Bool) (l : List UsageRecord) :
    sumQ (l.filter p) + sumQ (l.filter (fun r => !(p r))) = sumQ l := by
  induction l with
  | nil => simp [sumQ]
  | cons a l ih =>
    rcases hb : p a with _ | _ <;>
      simp [List.filter_cons, hb, sumQ_cons] <;>
      linarith [ih]

theorem sum_fibers : ∀ keys : List String, keys.Nodup → ∀ l : List UsageRecord,
    (∀ r ∈ l, r.departmentCat ∈ keys) →
    (keys.map (fun d => sumQ (l.filter (fun r => r.departmentCat == d)))).sum = sumQ l := by
  intro keys
  induction keys with
  | nil =>
    intro _ l hcov
    cases l with
    | nil => simp [sumQ]
    | cons a l => exact absurd (hcov a (List.mem_cons_self a l)) (List.not_mem_nil _)
  | cons k ks ih =>
    intro hnd l hcov
    have hnd' := List.nodup_cons.mp hnd
    rw [List.map_cons, List.sum_cons]
    have hmap : ∀ d ∈ ks,
        sumQ (l.filter (fun r => r.departmentCat == d)) =
          sumQ ((l.filter (fun r => !(r.departmentCat == k))).filter
            (fun r => r.departmentCat == d)) := by
      intro d hd
      have hdk : d ≠ k := fun e => hnd'.1 (e ▸ hd)
      rw [List.filter_filter]
      congr 1
      refine List.filter_congr fun r _ => ?_
      by_cases hrd : r.departmentCat = d
      · have h1 : (r.departmentCat == d) = true := beq_iff_eq.mpr hrd
        have h2 : (r.departmentCat == k) = false :=
          beq_eq_false_iff_ne.mpr (hrd ▸ hdk)
        rw [h1, h2]
        rfl
      · have h1 : (r.departmentCat == d) = false := beq_eq_false_iff_ne.mpr hrd
        rw [h1]
        simp
    have hcov' : ∀ r ∈ l.filter (fun r => !(r.departmentCat == k)),
        r.departmentCat ∈ ks := by
      intro r hr
      obtain ⟨hrl, hrk⟩ := List.mem_filter.mp hr
      rcases List.mem_cons.mp (hcov r hrl) with h | h
      · rw [h] at hrk
        simp at hrk
      · exact h
    rw [List.map_congr_left hmap, ih hnd'.2 _ hcov']
    exact sumQ_filter_partition _ l

theorem deptKeys_nodup (df : List UsageRecord) (identifier : String) :
    (deptKeys df identifier).Nodup := by
  unfold deptKeys
  exact (List.perm_insertionSort _ _).nodup_iff.mpr (List.nodup_dedup _)

theorem mem_deptKeys (df : List UsageRecord) (identifier : String) (d : String) :
    d ∈ deptKeys df identifier ↔
      d ∈ (matchingRecords df identifier).map (·.departmentCat) := by
  simp [deptKeys, List.mem_insertionSort, List.mem_dedup]

theorem deptKeys_cover (df : List UsageRecord) (identifier : String) :
    ∀ r ∈ matchingRecords df identifier, r.departmentCat ∈ deptKeys df identifier :=
  fun r hr => (mem_deptKeys df identifier r.departmentCat).mpr (List.mem_map_of_mem _ hr)

theorem totalUsage_eq_sumQ (df : List UsageRecord) (identifier : String) :
    totalUsage df identifier = sumQ (matchingRecords df identifier) := by
  unfold totalUsage usage_summary deptSum
  rw [List.map_map]
  exact sum_fibers (deptKeys df identifier) (deptKeys_nodup df identifier)
    (matchingRecords df identifier) (deptKeys_cover df identifier)

theorem map_fst_proportionsList (df : List UsageRecord) (identifier : String) :
    (proportionsList df identifier).map Prod.fst = deptKeys df identifier := by
  unfold proportionsList usage_summary
  generalize deptKeys df identifier = ks
  induction ks with
  | nil => rfl
  | cons d ds ih =>
    simp only [List.map_cons]
    exact congrArg (List.cons d) ih

theorem calculate_proportion_eq_some {df : List UsageRecord} {identifier : String}
    (h : matchingRecords df identifier ≠ []) :
    calculate_proportion df identifier =
      some (List.insertionSort descRel (proportionsList df identifier)) := by
  unfold calculate_proportion
  rw [if_neg h]

theorem sum_map_div_mul (l : List (String × ℚ)) (T : ℚ) :
    ((l.map (fun e => (e.1, e.2 / T * 100))).map Prod.snd).sum =
      (l.map Prod.snd).sum / T * 100 := by
  induction l with
  | nil => simp
  | cons e l ih =>
    simp only [List.map_cons, List.sum_cons, ih]
    ring

theorem sumQ_nonneg {l : List UsageRecord} (h : ∀ r ∈ l, 0 ≤ r.quantity) :
    0 ≤ sumQ l := by
  unfold sumQ
  refine List.sum_nonneg fun x hx => ?_
  obtain ⟨r, hr, rfl⟩ := List.mem_map.mp hx
  exact h r hr

theorem matchingRecords_subset (df : List UsageRecord) (identifier : String) :
    ∀ r ∈ matchingRecords df identifier, r ∈ df :=
  fun _ hr => (List.mem_filter.mp hr).1

theorem deptSum_nonneg {df : List UsageRecord} (identifier : String)
    (hdf : ∀ r ∈ df, 0 ≤ r.quantity) (d : String) :
    0 ≤ deptSum df identifier d := by
  unfold deptSum
  refine sumQ_nonneg fun r hr => hdf r ?_
  exact matchingRecords_subset df identifier r (List.mem_filter.mp hr).1

theorem totalUsage_nonneg {df : List UsageRecord} (identifier : String)
    (hdf : ∀ r ∈ df, 0 ≤ r.quantity) :
    0 ≤ totalUsage df identifier := by
  rw [totalUsage_eq_sumQ]
  exact sumQ_nonneg fun r hr => hdf r (matchingRecords_subset df identifier r hr)

theorem shares_nonneg {df : List UsageRecord} {identifier : String}
    (hdf : ∀ r ∈ df, 0 ≤ r.quantity) {shares : List (String × ℚ)}
    (hcalc : calculate_proportion df identifier = some shares) :
    ∀ s ∈ shares, 0 ≤ s.2 := by
  intro s hs
  unfold calculate_proportion at hcalc
  by_cases h : matchingRecords df identifier = []
  · rw [if_pos h] at hcalc
    simp at hcalc
  · rw [if_neg h] at hcalc
    injection hcalc with hcalc
    rw [← hcalc] at hs
    have hs' : s ∈ proportionsList df identifier :=
      (List.perm_insertionSort _ _).subset hs
    unfold proportionsList at hs'
    obtain ⟨e, he, rfl⟩ := List.mem_map.mp hs'
    refine mul_nonneg (div_nonneg ?_ (totalUsage_nonneg identifier hdf)) (by norm_num)
    unfold usage_summary at he
    obtain ⟨d, _, rfl⟩ := List.mem_map.mp he
    exact deptSum_nonneg identifier hdf d

theorem roundHalfEven_nonneg {x : ℚ} (hx : 0 ≤ x) : 0 ≤ roundHalfEven x := by
  have hf : 0 ≤ ⌊x⌋ := Int.floor_nonneg.mpr hx
  unfold roundHalfEven
  split_ifs <;> omega

theorem matchingRecords_congr (df : List UsageRecord) {id1 id2 : String}
    (h : id1.toLower = id2.toLower) :
    matchingRecords df id1 = matchingRecords df id2 := by
  unfold matchingRecords
  rw [h]

theorem proportionsList_congr (df : List UsageRecord) {id1 id2 : String}
    (h : matchingRecords df id1 = matchingRecords df id2) :
    proportionsList df id1 = proportionsList df id2 := by
  simp only [proportionsList, usage_summary, totalUsage, deptKeys, deptSum, h]

end SPP

namespace SPP

/- ### Claim theorems -/

/-- C6: the loaded table contains exactly those input rows whose quantity
coerces to a number and whose date falls in year 2024 or later, and every
retained record is dated 2024 or later. -/
theorem C6_loader_filters (rows : List RawRecord) :
    load_data_from_google_sheet rows = rows.filterMap keptBySpec ∧
    ∀ u ∈ load_data_from_google_sheet rows, 2024 ≤ u.dateYear := by
  refine ⟨load_eq_spec rows, fun u hu => ?_⟩
  rw [load_eq_spec] at hu
  obtain ⟨r, _, hr⟩ := List.mem_filterMap.mp hu
  exact keptBySpec_dateYear hr

/-- C6 witness: the loader applied to concrete raw rows keeps exactly the
2024 row with numeric quantity, and its retained record is dated ≥ 2024. -/
theorem C6_loader_filters_witness :
    (⟨2024, "a", "a", "d", 3⟩ : UsageRecord) ∈ load_data_from_google_sheet rowsW ∧
    (2024 : Int) ≤ (UsageRecord.mk 2024 "a" "a" "d" 3).dateYear :=
  ⟨by with_unfolding_all decide,
   (C6_loader_filters rowsW).2 ⟨2024, "a", "a", "d", 3⟩ (by with_unfolding_all decide)⟩

/-- C3: an identifier whose proportion computation is empty is omitted
entirely from the allocation result: the result keys are exactly the
request keys whose identifier has matching history, in request order; in
particular for a concrete request where `X` matches and `Y` does not, the
result has exactly the single key `X`. -/
theorem C3_no_match_omitted :
    (∀ (df : List UsageRecord) (req : List (String × ℚ)),
      (allocate_quantity df req).map Prod.fst =
        (req.filter (fun p => (calculate_proportion df p.1).isSome)).map Prod.fst) ∧
    (allocate_quantity dfX [("X", 50), ("Y", 10)]).map Prod.fst = ["X"] :=
  ⟨allocate_keys, by with_unfolding_all decide⟩

/-- C4: `calculate_proportion` selects exactly the records whose serial or
name equals the identifier case-insensitively, returns `none` exactly when
no record matches, and identifiers equal up to letter case yield identical
results. -/
theorem C4_case_insensitive_matching (df : List UsageRecord) (identifier : String) :
    (∀ r, r ∈ matchingRecords df identifier ↔
      r ∈ df ∧ (r.itemSerial.toLower = identifier.toLower ∨
                r.itemName.toLower = identifier.toLower)) ∧
    (calculate_proportion df identifier = none ↔ matchingRecords df identifier = []) ∧
    (∀ id2 : String, identifier.toLower = id2.toLower →
      calculate_proportion df identifier = calculate_proportion df id2) := by
  refine ⟨fun r => ?_, ?_, fun id2 h => ?_⟩
  · simp [matchingRecords, List.mem_filter, matchIdent]
  · unfold calculate_proportion
    by_cases h : matchingRecords df identifier = [] <;> simp [h]
  · have hm := matchingRecords_congr df h
    unfold calculate_proportion
    rw [hm, proportionsList_congr df hm]

/-- C4 witness: `ABC123` and `AbC123` give the same non-empty result
against the table whose only serial is `abc123`. -/
theorem C4_case_insensitive_matching_witness :
    calculate_proportion dfABC "ABC123" = calculate_proportion dfABC "AbC123" ∧
    calculate_proportion dfABC "ABC123" = some [("D1", 100)] :=
  ⟨(C4_case_insensitive_matching dfABC "ABC123").2.2 "AbC123" (by with_unfolding_all decide),
   by with_unfolding_all decide⟩

/-- C2: for the spec's two-record table (department A quantity 30,
department B quantity 70), requesting 50 of `X` yields `[(B, 70, 35),
(A, 30, 15)]`; and in general each allocated quantity is the rounded value
`round(percentage / 100 * requested)`. -/
theorem C2_allocation_scenario :
    allocate_quantity dfX [("X", 50)] = [("X", [("B", 70, 35), ("A", 30, 15)])] ∧
    ∀ (df : List UsageRecord) (req : List (String × ℚ)) (item : String) (q : ℚ)
      (shares : List (String × ℚ)),
      (item, q) ∈ req → calculate_proportion df item = some shares →
      (item, shares.map (fun s => (s.1, s.2, ((roundHalfEven (s.2 / 100 * q) : ℤ) : ℚ)))) ∈
        allocate_quantity df req := by
  constructor
  · with_unfolding_all decide
  · intro df req item q shares hmem hcalc
    unfold allocate_quantity
    refine List.mem_filterMap.mpr ⟨(item, q), hmem, ?_⟩
    simp [hcalc]

/-- C2 witness: instantiating the general rounding rule at the concrete
table and request reproduces the scenario's entry for `X`. -/
theorem C2_allocation_scenario_witness :
    ("X", [("B", (70 : ℚ)), ("A", 30)].map
        (fun s => (s.1, s.2, ((roundHalfEven (s.2 / 100 * 50) : ℤ) : ℚ)))) ∈
      allocate_quantity dfX [("X", 50)] :=
  C2_allocation_scenario.2 dfX [("X", 50)] "X" 50 [("B", 70), ("A", 30)]
    (by simp) (by with_unfolding_all decide)

/-- C7: `calculate_proportion` is a pure, deterministic function of
(table, identifier): under a sound memo, the memoised version returns the
pure function's value, keeps the memo sound, and a repeated call with the
same table and identifier returns the identical result. -/
theorem C7_pure_idempotent
    (c : List ((List UsageRecord × String) × Option (List (String × ℚ))))
    (df : List UsageRecord) (identifier : String) (hok : CacheOK c) :
    (calculate_proportion_cached c df identifier).1 = calculate_proportion df identifier ∧
    CacheOK (calculate_proportion_cached c df identifier).2 ∧
    (calculate_proportion_cached (calculate_proportion_cached c df identifier).2
        df identifier).1 =
      (calculate_proportion_cached c df identifier).1 := by
  refine ⟨cached_result c df identifier hok, cached_cacheOK c df identifier hok, ?_⟩
  rw [cached_result _ df identifier (cached_cacheOK c df identifier hok),
      cached_result c df identifier hok]

/-- C7 witness: starting from the empty memo, two successive calls at the
concrete table agree with the pure function and with each other. -/
theorem C7_pure_idempotent_witness :
    (calculate_proportion_cached [] dfX "X").1 = calculate_proportion dfX "X" ∧
    CacheOK (calculate_proportion_cached [] dfX "X").2 ∧
    (calculate_proportion_cached (calculate_proportion_cached [] dfX "X").2 dfX "X").1 =
      (calculate_proportion_cached [] dfX "X").1 :=
  C7_pure_idempotent [] dfX "X" (fun e he => absurd he (List.not_mem_nil e))

/-- C1: for an identifier with at least one matching record,
`calculate_proportion` returns one entry per distinct department of the
matching records (no duplicates, and exactly the departments occurring
among the matches), each entry's value is that department's summed
quantity divided by the total matching quantity times 100, and the list
is sorted in descending order of that value. -/
theorem C1_shares_grouped_sorted (df : List UsageRecord) (identifier : String)
    (h : matchingRecords df identifier ≠ []) :
    ∃ l, calculate_proportion df identifier = some l ∧
      (l.map Prod.fst).Nodup ∧
      (∀ d, d ∈ l.map Prod.fst ↔
        d ∈ (matchingRecords df identifier).map (·.departmentCat)) ∧
      (∀ e ∈ l, e.2 =
        deptSum df identifier e.1 / sumQ (matchingRecords df identifier) * 100) ∧
      l.Pairwise (fun x y => y.2 ≤ x.2) := by
  refine ⟨_, calculate_proportion_eq_some h, ?_, ?_, ?_, ?_⟩
  · have hperm : List.Perm
        ((List.insertionSort descRel (proportionsList df identifier)).map Prod.fst)
        ((proportionsList df identifier).map Prod.fst) :=
      (List.perm_insertionSort _ _).map _
    rw [hperm.nodup_iff, map_fst_proportionsList]
    exact deptKeys_nodup df identifier
  · intro d
    have hperm : List.Perm
        ((List.insertionSort descRel (proportionsList df identifier)).map Prod.fst)
        ((proportionsList df identifier).map Prod.fst) :=
      (List.perm_insertionSort _ _).map _
    rw [hperm.mem_iff, map_fst_proportionsList]
    exact mem_deptKeys df identifier d
  · intro e he
    have he' : e ∈ proportionsList df identifier :=
      (List.perm_insertionSort _ _).subset he
    unfold proportionsList at he'
    obtain ⟨x, hx, rfl⟩ := List.mem_map.mp he'
    unfold usage_summary at hx
    obtain ⟨d, _, rfl⟩ := List.mem_map.mp hx
    show deptSum df identifier d / totalUsage df identifier * 100 = _
    rw [totalUsage_eq_sumQ]
  · exact List.sorted_insertionSort descRel (proportionsList df identifier)

/-- C1 witness: the property instantiated at the concrete two-record
table and identifier `X`. -/
theorem C1_shares_grouped_sorted_witness :
    ∃ l, calculate_proportion dfX "X" = some l ∧
      (l.map Prod.fst).Nodup ∧
      (∀ d, d ∈ l.map Prod.fst ↔ d ∈ (matchingRecords dfX "X").map (·.departmentCat)) ∧
      (∀ e ∈ l, e.2 = deptSum dfX "X" e.1 / sumQ (matchingRecords dfX "X") * 100) ∧
      l.Pairwise (fun x y => y.2 ≤ x.2) :=
  C1_shares_grouped_sorted dfX "X" (by with_unfolding_all decide)

/-- C5 counterexample: in the table whose only matching record has
quantity 0, the identifier `x` matches a record, yet the percentages of
the (exact rational) result sum to 0, not 100: the claim fails without an
assumption that the total matching quantity is nonzero. -/
theorem C5_zero_total_counterexample :
    matchingRecords df0 "x" ≠ [] ∧
    calculate_proportion df0 "x" = some [("D", 0)] ∧
    (((calculate_proportion df0 "x").getD []).map Prod.snd).sum ≠ 100 :=
  ⟨by with_unfolding_all decide, by with_unfolding_all decide,
   by with_unfolding_all decide⟩

/-- C5 (amended): for every identifier matching at least one record,
provided the total quantity of the matching records is nonzero, the
percentages returned by `calculate_proportion` sum to exactly 100 in
exact rational arithmetic. -/
theorem C5_percentages_sum_100 (df : List UsageRecord) (identifier : String)
    (h : matchingRecords df identifier ≠ [])
    (htot : sumQ (matchingRecords df identifier) ≠ 0) :
    ∃ l, calculate_proportion df identifier = some l ∧ (l.map Prod.snd).sum = 100 := by
  refine ⟨_, calculate_proportion_eq_some h, ?_⟩
  have hperm : List.Perm
      ((List.insertionSort descRel (proportionsList df identifier)).map Prod.snd)
      ((proportionsList df identifier).map Prod.snd) :=
    (List.perm_insertionSort _ _).map _
  rw [hperm.sum_eq]
  have hT : totalUsage df identifier ≠ 0 := by
    rw [totalUsage_eq_sumQ]
    exact htot
  unfold proportionsList
  rw [sum_map_div_mul]
  show totalUsage df identifier / totalUsage df identifier * 100 = 100
  rw [div_self hT, one_mul]

/-- C5 witness: at the concrete two-record table the hypotheses hold and
the percentages sum to 100. -/
theorem C5_percentages_sum_100_witness :
    ∃ l, calculate_proportion dfX "X" = some l ∧ (l.map Prod.snd).sum = 100 :=
  C5_percentages_sum_100 dfX "X" (by with_unfolding_all decide)
    (by with_unfolding_all decide)

/-- C8: the rounding applied to allocated quantities is round-half-to-even:
whenever the exact value is an integer plus one half, the result is the
even one of the two neighbours; concretely, requesting 50 each of `H` and
`G` gives exact allocations 7.5 → 8, 42.5 → 42, 47.5 → 48 and 2.5 → 2. -/
theorem C8_round_half_to_even :
    (∀ (k : ℤ) (x : ℚ), x = (k : ℚ) + 1/2 →
      roundHalfEven x % 2 = 0 ∧ (roundHalfEven x = k ∨ roundHalfEven x = k + 1)) ∧
    allocate_quantity df8 [("H", 50), ("G", 50)] =
      [("H", [("B", 85, 42), ("A", 15, 8)]), ("G", [("D", 95, 48), ("C", 5, 2)])] := by
  constructor
  · intro k x hx
    subst hx
    have hhalf : ⌊(1/2 : ℚ)⌋ = 0 := by with_unfolding_all decide
    have hfl : ⌊(k : ℚ) + 1/2⌋ = k := by
      rw [Int.floor_int_add, hhalf, add_zero]
    have hr : ((k : ℚ) + 1/2) - (⌊(k : ℚ) + 1/2⌋ : ℚ) = 1/2 := by
      rw [hfl]
      ring
    unfold roundHalfEven
    rw [hr, hfl]
    have h1 : ¬((1 : ℚ)/2 < 1/2) := lt_irrefl _
    rw [if_neg h1, if_neg h1]
    by_cases hk : k % 2 = 0
    · rw [if_pos hk]
      exact ⟨hk, Or.inl rfl⟩
    · rw [if_neg hk]
      exact ⟨by omega, Or.inr rfl⟩
  · with_unfolding_all decide

/-- C8 witness: the tie-breaking rule applied at the exact value 7.5
(integer part 7): the result is even and one of 7, 8. -/
theorem C8_round_half_to_even_witness :
    roundHalfEven (((7 : ℤ) : ℚ) + 1/2) % 2 = 0 ∧
    (roundHalfEven (((7 : ℤ) : ℚ) + 1/2) = 7 ∨
     roundHalfEven (((7 : ℤ) : ℚ) + 1/2) = 7 + 1) :=
  C8_round_half_to_even.1 7 (((7 : ℤ) : ℚ) + 1/2) rfl

/-- C9: the division of line 60 is unguarded: whenever the total quantity
of the matching records is strictly positive the divisor is nonzero, but
there is a table (a matching record of quantity 0) where records match
and the divisor is exactly 0. -/
theorem C9_unguarded_division :
    (∀ (df : List UsageRecord) (identifier : String),
      0 < sumQ (matchingRecords df identifier) → totalUsage df identifier ≠ 0) ∧
    (matchingRecords df0 "x" ≠ [] ∧ totalUsage df0 "x" = 0) := by
  refine ⟨fun df identifier h => ?_, by with_unfolding_all decide,
    by with_unfolding_all decide⟩
  rw [totalUsage_eq_sumQ]
  exact ne_of_gt h

/-- C9 witness: at the concrete two-record table the matching total is
positive and the divisor is indeed nonzero. -/
theorem C9_unguarded_division_witness : totalUsage dfX "X" ≠ 0 :=
  C9_unguarded_division.1 dfX "X" (by with_unfolding_all decide)

/-- C10 counterexample: `df0` has only non-negative quantities and the
request for 50 of `x` has a non-negative quantity, yet the float-faithful
allocation for `x` carries a non-finite (NaN) percentage and a
non-finite allocated quantity (`none`): neither is a non-negative number,
so non-negativity fails without a nonzero-total assumption. -/
theorem C10_nan_counterexample :
    (df0.all fun r => decide (0 ≤ r.quantity)) = true ∧
    ([("x", (50 : ℚ))].all fun p => decide (0 ≤ p.2)) = true ∧
    allocate_quantityF df0 [("x", 50)] = [("x", [("D", none, none)])] := by
  with_unfolding_all decide

/-- C10 (amended): when every table quantity and every requested quantity
is non-negative and, for each requested identifier, the total quantity of
its matching records is nonzero, every percentage and every allocated
quantity produced by the float-faithful allocation is a finite,
non-negative number. -/
theorem C10_allocations_nonneg_amended (df : List UsageRecord)
    (req : List (String × ℚ))
    (hdf : ∀ r ∈ df, 0 ≤ r.quantity) (hreq : ∀ p ∈ req, 0 ≤ p.2)
    (htot : ∀ p ∈ req, sumQ (matchingRecords df p.1) ≠ 0) :
    ∀ entry ∈ allocate_quantityF df req, ∀ row ∈ entry.2,
      ∃ pct a : ℚ, row.2.1 = some pct ∧ row.2.2 = some a ∧ 0 ≤ pct ∧ 0 ≤ a := by
  intro entry hentry row hrow
  unfold allocate_quantityF at hentry
  obtain ⟨p, hp, hfp⟩ := List.mem_filterMap.mp hentry
  rcases hcalc : calculate_proportionF df p.1 with _ | shares
  · rw [hcalc] at hfp
    simp at hfp
  · rw [hcalc] at hfp
    have hentry_eq : entry = (p.1, shares.map (fun s =>
        (s.1, s.2, s.2.map (fun pct => ((roundHalfEven (pct / 100 * p.2) : ℤ) : ℚ))))) := by
      injection hfp with hfp
      exact hfp.symm
    rw [hentry_eq] at hrow
    obtain ⟨s, hs, rfl⟩ := List.mem_map.mp hrow
    have hT : totalUsage df p.1 ≠ 0 := by
      rw [totalUsage_eq_sumQ]
      exact htot p hp
    unfold calculate_proportionF at hcalc
    by_cases hm : matchingRecords df p.1 = []
    · rw [if_pos hm] at hcalc
      simp at hcalc
    · rw [if_neg hm] at hcalc
      injection hcalc with hcalc
      rw [← hcalc] at hs
      have hs' : s ∈ proportionsListF df p.1 :=
        (List.perm_insertionSort _ _).subset hs
      unfold proportionsListF at hs'
      obtain ⟨e, he, rfl⟩ := List.mem_map.mp hs'
      rw [if_neg hT]
      have hpct : 0 ≤ e.2 / totalUsage df p.1 * 100 := by
        unfold usage_summary at he
        obtain ⟨d, _, rfl⟩ := List.mem_map.mp he
        exact mul_nonneg
          (div_nonneg (deptSum_nonneg p.1 hdf d) (totalUsage_nonneg p.1 hdf))
          (by norm_num)
      refine ⟨_, _, rfl, rfl, hpct, ?_⟩
      have harg : 0 ≤ (e.2 / totalUsage df p.1 * 100) / 100 * p.2 :=
        mul_nonneg (div_nonneg hpct (by norm_num)) (hreq p hp)
      show (0 : ℚ) ≤
        ((roundHalfEven ((e.2 / totalUsage df p.1 * 100) / 100 * p.2) : ℤ) : ℚ)
      exact_mod_cast roundHalfEven_nonneg harg

/-- C10 witness: at the concrete two-record table with request 50 of `X`
all three hypotheses hold, and the row for department B carries the
finite non-negative percentage 70 and allocation 35. -/
theorem C10_allocations_nonneg_amended_witness :
    ∃ pct a : ℚ,
      (("B", some (70 : ℚ), some (35 : ℚ)) : String × Option ℚ × Option ℚ).2.1 = some pct ∧
      (("B", some (70 : ℚ), some (35 : ℚ)) : String × Option ℚ × Option ℚ).2.2 = some a ∧
      0 ≤ pct ∧ 0 ≤ a :=
  C10_allocations_nonneg_amended dfX [("X", 50)] (by with_unfolding_all decide)
    (by with_unfolding_all decide) (by with_unfolding_all decide)
    ("X", [("B", some 70, some 35), ("A", some 30, some 15)])
    (by with_unfolding_all decide) ("B", some 70, some 35)
    (by with_unfolding_all decide)

end SPP
